import Mathlib

/-!
Shallow embedding of the batch-processing / degradation pipeline of the
sentiment-dashboard repository, together with theorems settling the frozen
claims about it.

The embedded code comes from:
  * `sentiment-dashboard/deployment_fix.py`   (lightweight tier)
  * `sentiment-dashboard/universal_optimizer.py` (universal/cloud tier)
  * `sentiment-dashboard/emergency_deployment_fix.py` (emergency tier)
  * `sentiment-dashboard/optimization.py`     (full ML tier, timed cache,
    model manager, memory optimizer)

Python strings are modelled at the character-list level (`List Char`) so that
all operations are kernel-computable; Python floats are modelled as rationals
(`ℚ`); the opaque external models (transformers pipeline, KeyBERT) and the
possibility that a given step raises are modelled as explicit oracle
parameters.  Streamlit UI calls, `time.sleep` and `gc.collect` are effect-free
for the result value and are omitted.
-/

namespace SentimentPipeline

/-! ### Generic indexed-map helper

`mapFrom f i l` is the shallow embedding of the Python pattern
`for i, x in enumerate(l, start): results.append(f(i, x))`. -/

def mapFrom (f : ℕ → α → β) : ℕ → List α → List β
  | _, [] => []
  | i, a :: as => f i a :: mapFrom f (i + 1) as

/-! ### Character-level models of the Python string operations used -/

/-- Python `text.lower()` (character-wise, as used on the ASCII lexica). -/
def lowerData (s : String) : List Char := s.data.map Char.toLower

def listPrefixOf : List Char → List Char → Bool
  | [], _ => true
  | _ :: _, [] => false
  | a :: as, b :: bs => a == b && listPrefixOf as bs

def listInfixOf (p : List Char) : List Char → Bool
  | [] => listPrefixOf p []
  | c :: rest => listPrefixOf p (c :: rest) || listInfixOf p rest

/-- Python `needle in haystack` for strings: substring containment. -/
def pyIn (needle : String) (haystack : List Char) : Bool :=
  listInfixOf needle.data haystack

def splitWsGo : List Char → List Char → List (List Char)
  | [], acc => if acc.isEmpty then [] else [acc.reverse]
  | c :: cs, acc =>
    if c.isWhitespace then
      if acc.isEmpty then splitWsGo cs [] else acc.reverse :: splitWsGo cs []
    else splitWsGo cs (c :: acc)

/-- Python `str.split()` with no argument: split on whitespace runs,
dropping empty pieces. -/
def pySplitWs (s : List Char) : List (List Char) := splitWsGo s []

/-- Python `str.strip(chars)`: drop leading and trailing characters that
belong to `chars`. -/
def pyStrip (chars : List Char) (w : List Char) : List Char :=
  ((w.dropWhile (chars.contains ·)).reverse.dropWhile (chars.contains ·)).reverse

/-- Python `', '.join ws` at the character level. -/
def joinCommaSpace : List (List Char) → List Char
  | [] => []
  | [w] => w
  | w :: ws => w ++ [',', ' '] ++ joinCommaSpace ws

/-- Python `text[:cap] + "..." if len(text) > cap else text`. -/
def truncatePy (cap : ℕ) (t : String) : String :=
  if cap < t.data.length then String.mk (t.data.take cap ++ "...".data) else t

/-- Python `round(x, 3)` on the rational model of floats. -/
def round3 (q : ℚ) : ℚ := (round (q * 1000) : ℤ) / 1000

/-! ### The chunked batch loop

Embedding of the Python pattern shared by `BatchProcessor.process_batch`
(`optimization.py`) and `process_universal_batch` (`universal_optimizer.py`):

```
for batch_idx in range(0, len(texts), bs):
    batch = texts[batch_idx:batch_idx + bs]
    try:  ... per-chunk model call, then per-item rows ...
    except: ... one chunk-error row per item of the chunk ...
```

`cf c` is the oracle for "the whole-chunk model call for chunk number `c`
raises"; `rowAt i t` is the row produced for the item at global index `i`. -/

def chunkLoop (bs : ℕ) (rowAt : ℕ → String → R) (chunkErr : String → R)
    (cf : ℕ → Bool) : ℕ → ℕ → List String → List R
  | _, _, [] => []
  | c, start, t :: ts =>
    if h : bs = 0 then [] else
      (if cf c then ((t :: ts).take bs).map chunkErr
       else mapFrom rowAt start ((t :: ts).take bs))
        ++ chunkLoop bs rowAt chunkErr cf (c + 1) (start + bs) ((t :: ts).drop bs)
  termination_by _ _ ts => ts.length
  decreasing_by
    simp only [List.length_drop, List.length_cons]
    omega

/-! ## `deployment_fix.py` — the lightweight tier -/

/-- One result row of the heuristic tiers (the columns of the DataFrame rows
built by `process_batch_deployment_safe`, `process_universal_batch` and
`emergency_batch_processor`). -/
structure Row where
  text : String
  sentiment : String
  confidence : ℚ
  keywords : String
  use_case : String
deriving Repr, DecidableEq

def LightweightSentimentAnalyzer.positive_words : List String :=
  ["good", "great", "excellent", "amazing", "wonderful", "fantastic",
   "love", "perfect", "best", "awesome", "outstanding", "brilliant",
   "superb", "magnificent", "terrific", "marvelous", "exceptional"]

def LightweightSentimentAnalyzer.negative_words : List String :=
  ["bad", "terrible", "awful", "horrible", "hate", "worst",
   "disgusting", "disappointing", "poor", "useless", "pathetic",
   "dreadful", "appalling", "atrocious", "abysmal", "deplorable"]

/-- The pair (positive_score, negative_score) computed inside
`LightweightSentimentAnalyzer.analyze`, including the `'!'` emphasis boost. -/
def LightweightSentimentAnalyzer.scores (text : String) : ℕ × ℕ :=
  let tl := lowerData text
  let p := 2 * LightweightSentimentAnalyzer.positive_words.countP (fun w => pyIn w tl)
  let n := 2 * LightweightSentimentAnalyzer.negative_words.countP (fun w => pyIn w tl)
  if text.data.contains '!' then
    if 0 < p then (p + 1, n) else if 0 < n then (p, n + 1) else (p, n)
  else (p, n)

/-- The classification arm shared verbatim by `LightweightSentimentAnalyzer.analyze`
and the inline analysis of `emergency_batch_processor`: 3-class label with
confidence `min(0.9, 0.6 + margin * 0.1)`, else Neutral at 0.5. -/
def threeClass (s : ℕ × ℕ) : String × ℚ :=
  if s.2 < s.1 then
    ("Positive", min (9/10) (6/10 + ((s.1 - s.2 : ℕ) : ℚ) * (1/10)))
  else if s.1 < s.2 then
    ("Negative", min (9/10) (6/10 + ((s.2 - s.1 : ℕ) : ℚ) * (1/10)))
  else ("Neutral", 1/2)

/-- `LightweightSentimentAnalyzer.analyze`: 3-class heuristic sentiment. -/
def LightweightSentimentAnalyzer.analyze (text : String) : String × ℚ :=
  threeClass (LightweightSentimentAnalyzer.scores text)

def LightweightKeywordExtractor.stop_words : List String :=
  ["the", "a", "an", "and", "or", "but", "in", "on", "at", "to",
   "for", "of", "with", "by", "is", "are", "was", "were", "be",
   "been", "have", "has", "had", "do", "does", "did", "will",
   "would", "could", "should", "may", "might", "can", "this",
   "that", "these", "those", "i", "you", "he", "she", "it",
   "we", "they", "me", "him", "her", "us", "them", "my", "your",
   "his", "hers", "our", "their", "am", "get", "got", "very",
   "really", "just", "so", "now", "here", "there", "where",
   "when", "what", "how", "why", "who", "which", "than", "too"]

/-- The characters replaced by spaces before tokenizing in
`LightweightKeywordExtractor.extract`. -/
def sentencePunct : List Char := [',', '.', '!', '?']

/-- The character set of Python `word.strip('.,!?";()[]\x7b\x7d')`. -/
def stripSet : List Char :=
  ['.', ',', '!', '?', '"', ';', '(', ')', '[', ']', '\x7b', '\x7d']

def bumpCount (w : List Char) : List (List Char × ℕ) → List (List Char × ℕ)
  | [] => [(w, 1)]
  | p :: ps => if p.1 == w then (p.1, p.2 + 1) :: ps else p :: bumpCount w ps

/-- Python dict-based frequency counting: entries in first-occurrence order. -/
def firstOccCounts (ws : List (List Char)) : List (List Char × ℕ) :=
  ws.foldl (fun acc w => bumpCount w acc) []

/-- Python `sorted(word_freq.items(), key=lambda x: x[1], reverse=True)`:
a stable sort by count, descending. -/
def pySortByCountDesc (l : List (List Char × ℕ)) : List (List Char × ℕ) :=
  l.mergeSort (fun a b => decide (b.2 ≤ a.2))

/-- `LightweightKeywordExtractor.extract`. -/
def LightweightKeywordExtractor.extract (text : String) (top_n : ℕ) :
    List (List Char) :=
  let words := pySplitWs
    ((lowerData text).map (fun c => if sentencePunct.contains c then ' ' else c))
  let kept := (words.map (pyStrip stripSet)).filter (fun w =>
    decide (2 < w.length)
      && !((LightweightKeywordExtractor.stop_words.map String.data).contains w)
      && w.all Char.isAlpha)
  (((pySortByCountDesc (firstOccCounts kept)).take top_n).filter
    (fun p => decide (0 < p.2))).map (·.1)

/-- The inline use-case heuristic of `process_batch_deployment_safe`. -/
def deploymentUseCase (tl : List Char) : String :=
  if ["product", "quality", "buy", "purchase"].any (fun w => pyIn w tl) then
    "Product Review"
  else if ["service", "support", "help"].any (fun w => pyIn w tl) then
    "Customer Service"
  else if ["social", "post", "share"].any (fun w => pyIn w tl) then
    "Social Media"
  else "General Analysis"

/-- The row appended for an item that processes successfully in
`process_batch_deployment_safe`. -/
def deploymentOkRow (t0 : String) : Row :=
  let t := truncatePy 500 t0
  let sc := LightweightSentimentAnalyzer.analyze t
  let kws := LightweightKeywordExtractor.extract t 3
  { text := t, sentiment := sc.1, confidence := sc.2,
    keywords := if kws.isEmpty then "none detected"
                else String.mk (joinCommaSpace kws),
    use_case := deploymentUseCase (lowerData t) }

/-- The sentinel row appended when processing one item raises (the `except`
branch of the per-item loop in `process_batch_deployment_safe`). -/
def deploymentErrRow (t0 : String) : Row :=
  { text := truncatePy 500 t0, sentiment := "Error", confidence := 0,
    keywords := "processing failed", use_case := "Error" }

/-- `process_batch_deployment_safe`: the per-item loop, with the tier ceiling
of 100 texts applied first; `fail i` is the oracle for "processing item `i`
raises". -/
def process_batch_deployment_safe (fail : ℕ → Bool) (texts : List String) :
    List Row :=
  if texts.isEmpty then [] else
  let capped := if 100 < texts.length then texts.take 100 else texts
  mapFrom (fun i t => if fail i then deploymentErrRow t else deploymentOkRow t)
    0 capped

/-! ## `universal_optimizer.py` — the universal/cloud tier -/

def UniversalBatchProcessor.positive_keywords : List String :=
  ["excellent", "amazing", "wonderful", "fantastic", "great", "good", "perfect",
   "outstanding", "brilliant", "superb", "awesome", "love", "best", "incredible",
   "marvelous", "terrific", "delightful", "pleased", "satisfied", "happy",
   "spectacular", "phenomenal", "exceptional", "remarkable", "magnificent",
   "fabulous", "gorgeous", "beautiful", "stunning", "impressive"]

def UniversalBatchProcessor.negative_keywords : List String :=
  ["terrible", "awful", "horrible", "disgusting", "hate", "worst", "bad",
   "disappointing", "poor", "useless", "pathetic", "dreadful", "appalling",
   "atrocious", "abysmal", "deplorable", "frustrated", "angry", "annoyed",
   "furious", "outraged", "disgusted", "revolting", "repulsive", "offensive",
   "unacceptable", "intolerable", "insufferable", "unbearable"]

def negation_words : List String :=
  ["not", "no", "never", "nothing", "nobody", "nowhere", "neither", "nor"]

/-- `force_deployment_optimization()` in `universal_optimizer.py` always
returns `True`. -/
def force_deployment_optimization : Bool := true

/-- `detect_streamlit_cloud()` inspects the process environment; its result
list is an environment oracle here.  `is_cloud` is the condition
`bool(detection_methods) or force_deployment_optimization()` used by
`process_universal_batch` and `get_batch_size`. -/
def is_cloud (detection_methods : List String) : Bool :=
  !detection_methods.isEmpty || force_deployment_optimization

def UniversalBatchProcessor.get_batch_size (detection : List String)
    (total : ℕ) : ℕ :=
  if is_cloud detection then
    if total ≤ 10 then 3 else if total ≤ 50 then 5
    else if total ≤ 100 then 8 else 10
  else
    if total ≤ 50 then 10 else if total ≤ 200 then 20 else 30

/-- The pair (positive_score, negative_score) computed inside
`analyze_sentiment_optimized`, after the emphasis boost and negation swap. -/
def UniversalBatchProcessor.scores (text : String) : ℕ × ℕ :=
  let tw := pySplitWs (lowerData text)
  let pm := UniversalBatchProcessor.positive_keywords.countP
      (fun w => tw.contains w.data)
  let nm := UniversalBatchProcessor.negative_keywords.countP
      (fun w => tw.contains w.data)
  let b : ℕ × ℕ :=
    if text.data.contains '!' then
      if 0 < pm then (pm * 2 + 1, nm * 2)
      else if 0 < nm then (pm * 2, nm * 2 + 1)
      else (pm * 2, nm * 2)
    else (pm * 2, nm * 2)
  if negation_words.any (fun w => tw.contains w.data) then (b.2, b.1) else b

/-- `UniversalBatchProcessor.analyze_sentiment_optimized`. -/
def UniversalBatchProcessor.classify (s : ℕ × ℕ) : String × ℚ :=
  if s.2 < s.1 then
    ("Positive", min (19/20) (3/5 + ((s.1 - s.2 : ℕ) : ℚ) * (1/20)))
  else if s.1 < s.2 then
    ("Negative", min (19/20) (3/5 + ((s.2 - s.1 : ℕ) : ℚ) * (1/20)))
  else ("Neutral", 1/2)

def UniversalBatchProcessor.analyze_sentiment_optimized (text : String) :
    String × ℚ :=
  if text.data.isEmpty || text.data.all Char.isWhitespace then ("Neutral", 1/2)
  else UniversalBatchProcessor.classify (UniversalBatchProcessor.scores text)

def UniversalBatchProcessor.stop_words : List String :=
  ["the", "a", "an", "and", "or", "but", "in", "on", "at", "to", "for",
   "of", "with", "by", "is", "are", "was", "were", "be", "been", "have",
   "has", "had", "do", "does", "did", "will", "would", "could", "should",
   "may", "might", "can", "this", "that", "these", "those", "i", "you",
   "he", "she", "it", "we", "they", "me", "him", "her", "us", "them",
   "my", "your", "his", "hers", "our", "their", "get", "got", "very",
   "really", "just", "so", "now", "here", "there", "when", "what",
   "how", "why", "who", "which", "than", "too", "also", "then"]

/-- `UniversalBatchProcessor.extract_keywords_fast`. -/
def UniversalBatchProcessor.extract_keywords_fast (text : String)
    (max_keywords : ℕ) : List (List Char) :=
  if text.data.isEmpty then [] else
  let words := pySplitWs
    ((lowerData text).map (fun c => if stripSet.contains c then ' ' else c))
  let kept := words.filter (fun w =>
    decide (2 < w.length)
      && !((UniversalBatchProcessor.stop_words.map String.data).contains w)
      && w.all Char.isAlpha
      && !(!w.isEmpty && w.all Char.isDigit))
  ((pySortByCountDesc (firstOccCounts kept)).take max_keywords).map (·.1)

/-- `UniversalBatchProcessor.determine_use_case_fast`. -/
def UniversalBatchProcessor.determine_use_case_fast (text : String) : String :=
  let tl := lowerData text
  if ["product", "buy", "purchase", "quality", "price"].any (fun w => pyIn w tl)
    then "Product Review"
  else if ["service", "support", "help", "staff"].any (fun w => pyIn w tl)
    then "Customer Service"
  else if ["food", "restaurant", "meal", "taste"].any (fun w => pyIn w tl)
    then "Restaurant/Food"
  else if ["hotel", "room", "stay", "booking"].any (fun w => pyIn w tl)
    then "Travel/Hotel"
  else if ["post", "tweet", "share", "social"].any (fun w => pyIn w tl)
    then "Social Media"
  else "General Analysis"

/-- The row appended for a successfully processed item of
`process_universal_batch`. -/
def universalOkRow (t0 : String) : Row :=
  let t := truncatePy 1000 t0
  let sc := UniversalBatchProcessor.analyze_sentiment_optimized t
  let kws := UniversalBatchProcessor.extract_keywords_fast t 3
  { text := t, sentiment := sc.1, confidence := round3 sc.2,
    keywords := if kws.isEmpty then "none" else String.mk (joinCommaSpace kws),
    use_case := UniversalBatchProcessor.determine_use_case_fast t }

/-- The sentinel row appended when one item of `process_universal_batch`
raises. -/
def universalErrRow (t0 : String) : Row :=
  { text := truncatePy 1000 t0, sentiment := "Error", confidence := 0,
    keywords := "processing failed", use_case := "Error" }

/-- `UniversalBatchProcessor.process_universal_batch`.  Returns the rows plus
whether the count-limited warning was emitted.  `fail i` is the per-item
failure oracle; `detection` is the environment oracle (the result of
`detect_streamlit_cloud()`).  The universal loop has no per-chunk `except`,
so the chunk-failure oracle of `chunkLoop` is constantly `false`. -/
def process_universal_batch (detection : List String) (fail : ℕ → Bool)
    (texts : List String) : List Row × Bool :=
  if texts.isEmpty then ([], false) else
  let limited := is_cloud detection && decide (200 < texts.length)
  let capped := if limited then texts.take 200 else texts
  let bs := UniversalBatchProcessor.get_batch_size detection capped.length
  (chunkLoop bs
     (fun i t => if fail i then universalErrRow t else universalOkRow t)
     universalErrRow (fun _ => false) 0 0 capped,
   limited)

/-! ## `emergency_deployment_fix.py` — the emergency tier -/

def emergency_positive_words : List String :=
  ["excellent", "amazing", "wonderful", "fantastic", "great", "good", "perfect",
   "outstanding", "brilliant", "superb", "awesome", "love", "best", "incredible",
   "marvelous", "terrific", "delightful", "pleased", "satisfied", "happy"]

def emergency_negative_words : List String :=
  ["terrible", "awful", "horrible", "disgusting", "hate", "worst", "bad",
   "disappointing", "poor", "useless", "pathetic", "dreadful", "appalling",
   "atrocious", "abysmal", "deplorable", "frustrated", "angry", "annoyed"]

/-- The pair (positive_matches, negative_matches) of the emergency tier's
inline sentiment analysis (word-set intersection counts; no emphasis boost). -/
def emergencyScores (text : String) : ℕ × ℕ :=
  let tw := pySplitWs (lowerData text)
  (emergency_positive_words.countP (fun w => tw.contains w.data),
   emergency_negative_words.countP (fun w => tw.contains w.data))

/-- The inline sentiment classification of `emergency_batch_processor`
(lines 60–75 of `emergency_deployment_fix.py`): intersection-count scores,
no emphasis boost, then the same classification arm. -/
def emergencyAnalyze (text : String) : String × ℚ :=
  threeClass (emergencyScores text)

def emergency_stop_words : List String :=
  ["the", "a", "an", "and", "or", "but", "in", "on", "at", "to", "for",
   "of", "with", "by"]

/-- The successful-item row of `emergency_batch_processor`.  `setOrder` is the
oracle for the iteration order of Python's `list(set(...))`, applied to the
distinct filtered tokens (in first-occurrence order). -/
def emergencyOkRow (setOrder : List (List Char) → List (List Char))
    (t0 : String) : Row :=
  let t := truncatePy 300 t0
  let tl := lowerData t
  let sc := emergencyAnalyze t
  let words := pySplitWs
    (tl.map (fun c => if c = ',' || c = '.' then ' ' else c))
  let kws := words.filter (fun w =>
    decide (2 < w.length)
      && !((emergency_stop_words.map String.data).contains w)
      && w.all Char.isAlpha)
  let top := (setOrder kws.dedup).take 3
  { text := t, sentiment := sc.1, confidence := round3 sc.2,
    keywords := if top.isEmpty then "none" else String.mk (joinCommaSpace top),
    use_case :=
      if ["product", "buy", "purchase"].any (fun w => pyIn w tl) then
        "Product Review"
      else if ["service", "support", "help"].any (fun w => pyIn w tl) then
        "Customer Service"
      else "General Analysis" }

/-- The sentinel row appended when one item of `emergency_batch_processor`
raises. -/
def emergencyErrRow (t0 : String) : Row :=
  { text := truncatePy 300 t0, sentiment := "Error", confidence := 0,
    keywords := "processing failed", use_case := "Error" }

/-- `emergency_batch_processor`: the per-item loop with the hard ceiling of
50 texts. -/
def emergency_batch_processor
    (setOrder : List (List Char) → List (List Char)) (fail : ℕ → Bool)
    (texts : List String) : List Row :=
  if texts.isEmpty then [] else
  let capped := if 50 < texts.length then texts.take 50 else texts
  mapFrom
    (fun i t => if fail i then emergencyErrRow t else emergencyOkRow setOrder t)
    0 capped

/-! ## `optimization.py` — the full ML tier (`BatchProcessor.process_batch`) -/

/-- A row of the full-tier DataFrame (it has the extra `raw_score` column). -/
structure FullRow where
  text : String
  sentiment : String
  confidence : ℚ
  raw_score : ℤ
  keywords : String
  use_case : String
deriving Repr, DecidableEq

def digitsVal (cs : List Char) : Option ℕ :=
  if cs.isEmpty || !cs.all Char.isDigit then none
  else some (cs.foldl (fun a c => a * 10 + (c.toNat - 48)) 0)

/-- Python `int(w)`: optional sign followed by digits; anything else raises
`ValueError` (modelled as `none`). -/
def pyInt (cs : List Char) : Option ℤ :=
  match cs with
  | '-' :: rest => (digitsVal rest).map (fun n => -(n : ℤ))
  | '+' :: rest => (digitsVal rest).map (fun n => (n : ℤ))
  | _ => (digitsVal cs).map (fun n => (n : ℤ))

/-- `int(sentiment_result['label'].split()[0])`: `none` when the label has no
first token or the token is not an integer (this is the per-item failure that
the per-item `except` converts to a sentinel row). -/
def parseScore (label : String) : Option ℤ :=
  match pySplitWs label.data with
  | [] => none
  | w :: _ => pyInt w

/-- The five-class mapping of `process_batch`; every score other than 1–4
falls into the `else` branch (commented `# score == 5` in the source). -/
def mapScore (score : ℤ) : String :=
  if score = 1 then "Very Negative"
  else if score = 2 then "Negative"
  else if score = 3 then "Neutral"
  else if score = 4 then "Positive"
  else "Very Positive"

/-- The category keyword sets of `determine_use_case` in `optimization.py`,
in dict insertion order. -/
def use_case_defs : List (String × List String) :=
  [("social_media", ["post", "tweet", "comment", "like", "share", "follow"]),
   ("customer_feedback",
      ["review", "feedback", "rating", "experience", "service"]),
   ("product_review",
      ["product", "quality", "price", "feature", "bought", "purchased"]),
   ("brand_monitoring",
      ["brand", "company", "reputation", "market", "competitor"]),
   ("market_research", ["market", "trend", "industry", "consumer", "demand"]),
   ("customer_service", ["support", "help", "issue", "problem", "resolution"]),
   ("competitive_intel",
      ["competitor", "versus", "compared", "alternative", "better"])]

def use_case_names : List (String × String) :=
  [("social_media", "Social Media Analysis"),
   ("customer_feedback", "Customer Feedback Analysis"),
   ("product_review", "Product Review Classification"),
   ("brand_monitoring", "Brand Monitoring"),
   ("market_research", "Market Research"),
   ("customer_service", "Customer Service Optimization"),
   ("competitive_intel", "Competitive Intelligence")]

/-- Python `max(items, key=lambda x: x[1])`: the first item attaining the
maximal key, folded from an initial item. -/
def pyMaxBySnd (x : String × ℕ) (xs : List (String × ℕ)) : String × ℕ :=
  xs.foldl (fun b y => if b.2 < y.2 then y else b) x

/-- `determine_use_case` as defined in `optimization.py`. -/
def determine_use_case (text : String) : String :=
  let tl := lowerData text
  let scores := use_case_defs.map
    (fun c => (c.1, c.2.countP (fun w => pyIn w tl)))
  let best :=
    match scores with
    | [] => ""
    | x :: xs => (pyMaxBySnd x xs).1
  ((use_case_names.find? (fun p => p.1 == best)).map (·.2)).getD
    "General Analysis"

/-- The sentinel row for a per-item failure inside a successfully processed
chunk of `BatchProcessor.process_batch`. -/
def analysisFailedRow (t : String) : FullRow :=
  { text := t, sentiment := "Analysis Failed", confidence := 0, raw_score := 0,
    keywords := "error", use_case := "Error" }

/-- The sentinel row used for every item of a chunk whose model call raised. -/
def batchFailedRow (t : String) : FullRow :=
  { text := t, sentiment := "Batch Failed", confidence := 0, raw_score := 0,
    keywords := "batch error", use_case := "Error" }

/-- The row built for the item at global index `i` of a chunk whose model
call succeeded.  `modelOut i` is the sentiment model's `{label, score}` output
for that item; `kwOut i` is the KeyBERT phrase list, `none` when keyword
extraction raises (which yields the fixed marker on an otherwise
successful row). -/
def fullItemRow (modelOut : ℕ → String × ℚ) (kwOut : ℕ → Option (List String))
    (i : ℕ) (t : String) : FullRow :=
  match parseScore (modelOut i).1 with
  | none => analysisFailedRow t
  | some score =>
    { text := t, sentiment := mapScore score,
      confidence := round3 (modelOut i).2, raw_score := score,
      keywords :=
        match kwOut i with
        | none => "keyword extraction failed"
        | some ks => String.mk (joinCommaSpace (ks.map String.data)),
      use_case := determine_use_case t }

/-- `BatchProcessor.process_batch` with its default `batch_size = 16`:
chunked processing with per-chunk and per-item fault isolation.
`chunkFail c` is the oracle for "the batch model call for chunk `c` raises"
(the `except Exception as batch_error` branch). -/
def BatchProcessor.process_batch (modelOut : ℕ → String × ℚ)
    (kwOut : ℕ → Option (List String)) (chunkFail : ℕ → Bool)
    (texts : List String) : List FullRow :=
  if texts.isEmpty then [] else
  chunkLoop 16 (fullItemRow modelOut kwOut) batchFailedRow chunkFail 0 0 texts

/-! ## `timed_cache` (`optimization.py`) -/

structure TimedCache (α : Type) where
  entries : List (String × α × ℚ)

/-- `key in cache` / `cache[key]`: Python dict lookup on the association
list (keys are unique, insertion-ordered). -/
def lookupEntry (st : TimedCache α) (k : String) : Option (α × ℚ) :=
  (st.entries.find? (fun e => e.1 == k)).map (·.2)

/-- `min(cache.keys(), key=lambda k: cache[k][1])`: the first entry attaining
the minimal timestamp, in iteration (insertion) order. -/
def oldestEntry : List (String × α × ℚ) → Option (String × α × ℚ)
  | [] => none
  | e :: es => some (es.foldl (fun b x => if x.2.2 < b.2.2 then x else b) e)

/-- `del cache[oldest_key]`. -/
def evictOldest (es : List (String × α × ℚ)) : List (String × α × ℚ) :=
  match oldestEntry es with
  | none => es
  | some e => es.eraseP (fun x => x.1 == e.1)

/-- `cache[key] = value`: overwrite in place if present, else append. -/
def insertEntry (es : List (String × α × ℚ)) (k : String) (v : α × ℚ) :
    List (String × α × ℚ) :=
  if es.any (fun e => e.1 == k) then
    es.map (fun e => if e.1 == k then (k, v) else e)
  else es ++ [(k, v)]

structure CallResult (α : Type) where
  value : α
  state : TimedCache α
  invoked : Bool

/-- The miss path of the wrapper: execute `func`, evict the oldest entry if
the cache has reached `max_size`, then store `(result, time.time())`. -/
def cachedMiss (fn : String → α) (max_size : ℕ) (st : TimedCache α)
    (k : String) (tStore : ℚ) : CallResult α :=
  let pruned := if max_size ≤ st.entries.length then evictOldest st.entries
                else st.entries
  ⟨fn k, ⟨insertEntry pruned k (fn k, tStore)⟩, true⟩

/-- One call of the function wrapped by `timed_cache(ttl, max_size)`.
`tCheck` is the `time.time()` used for the expiry check and `tStore` the one
stored with a newly computed result; `invoked` records whether the underlying
`func` was executed on this call. -/
def cachedCall (fn : String → α) (ttl : ℚ) (max_size : ℕ)
    (st : TimedCache α) (k : String) (tCheck tStore : ℚ) : CallResult α :=
  match lookupEntry st k with
  | some (r, ts) =>
    if tCheck - ts < ttl then ⟨r, st, false⟩
    else cachedMiss fn max_size st k tStore
  | none => cachedMiss fn max_size st k tStore

/-- A sequence of calls through the wrapper: each element carries the argument
and the two clock readings of that call. -/
def runCalls (fn : String → α) (ttl : ℚ) (max_size : ℕ) :
    TimedCache α → List (String × ℚ × ℚ) → TimedCache α
  | st, [] => st
  | st, (k, t1, t2) :: rest =>
    runCalls fn ttl max_size (cachedCall fn ttl max_size st k t1 t2).state rest

/-! ## `ModelManager` (`optimization.py`) -/

inductive GetModelErr
  | acquisition
  | keyNotFound
deriving Repr, DecidableEq

/-- `ModelManager.get_model`.  `load name` is the oracle for the expensive
model acquisition (`none` = the constructor raised; the `except` re-raises).
`models` is the class-level `_models` cache.  Returns the outcome, the new
cache, and whether acquisition was attempted on this call. -/
def ModelManager.get_model (load : String → Option μ)
    (models : List (String × μ)) (name : String) :
    Except GetModelErr μ × List (String × μ) × Bool :=
  match models.find? (fun e => e.1 == name) with
  | some e => (Except.ok e.2, models, false)
  | none =>
    if name = "sentiment" ∨ name = "keyword" then
      match load name with
      | some m => (Except.ok m, models ++ [(name, m)], true)
      | none => (Except.error .acquisition, models, true)
    else (Except.error .keyNotFound, models, false)

/-! ## `optimize_memory_usage` (`optimization.py`) -/

inductive Dtype
  | object | category | float64 | float32 | int64 | int32
deriving Repr, DecidableEq

inductive Cell
  | str (s : String)
  | int (i : ℤ)
  | float (q : ℚ)
deriving Repr, DecidableEq

structure Col where
  name : String
  dtype : Dtype
  cells : List Cell
deriving Repr, DecidableEq

structure Frame where
  cols : List Col
deriving Repr, DecidableEq

/-- numpy's `int64 → int32` value cast: two's-complement wraparound. -/
def int32cast (i : ℤ) : ℤ := (i + 2 ^ 31) % 2 ^ 32 - 2 ^ 31

def castCellInt32 : Cell → Cell
  | .int i => .int (int32cast i)
  | c => c

def castCellF32 (f32 : ℚ → ℚ) : Cell → Cell
  | .float q => .float (f32 q)
  | c => c

/-- `optimize_memory_usage`: recast each column according to its dtype.
`f32` is the oracle for the `float64 → float32` value conversion (the
identity exactly on float32-representable values). -/
def optimize_memory_usage (f32 : ℚ → ℚ) (df : Frame) : Frame :=
  ⟨df.cols.map (fun col =>
    match col.dtype with
    | .object => { col with dtype := .category }
    | .float64 =>
        { col with dtype := .float32, cells := col.cells.map (castCellF32 f32) }
    | .int64 =>
        { col with dtype := .int32, cells := col.cells.map castCellInt32 }
    | _ => col)⟩

/-- The dtype mapping performed by `optimize_memory_usage`. -/
def dtypeAfter : Dtype → Dtype
  | .object => .category
  | .float64 => .float32
  | .int64 => .int32
  | d => d

theorem length_mapFrom (f : ℕ → α → β) (s : ℕ) (l : List α) :
    (mapFrom f s l).length = l.length := by
  induction l generalizing s with
  | nil => rfl
  | cons a as ih => simp [mapFrom, ih]

theorem getElem?_mapFrom (f : ℕ → α → β) (s : ℕ) (l : List α) (i : ℕ) :
    (mapFrom f s l)[i]? = (l[i]?).map (f (s + i)) := by
  induction l generalizing s i with
  | nil => simp [mapFrom]
  | cons a as ih =>
    cases i with
    | zero => simp [mapFrom]
    | succ j =>
      simp only [mapFrom, List.getElem?_cons_succ]
      rw [ih (s + 1) j]
      have : s + 1 + j = s + (j + 1) := by omega
      rw [this]

theorem mapFrom_congr {f g : ℕ → α → β} (s : ℕ) (l : List α)
    (h : ∀ i a, i < l.length → f (s + i) a = g (s + i) a) :
    mapFrom f s l = mapFrom g s l := by
  induction l generalizing s with
  | nil => rfl
  | cons a as ih =>
    simp only [mapFrom]
    have h0 : f s a = g s a := by simpa using h 0 a (by simp)
    have ht : mapFrom f (s + 1) as = mapFrom g (s + 1) as := by
      refine ih (s + 1) fun i a hi => ?_
      have := h (i + 1) a (by simpa using Nat.succ_lt_succ hi)
      have e : s + 1 + i = s + (i + 1) := by omega
      rw [e]; exact this
    rw [h0, ht]

theorem mapFrom_const (g : α → β) (s : ℕ) (l : List α) :
    mapFrom (fun _ a => g a) s l = l.map g := by
  induction l generalizing s with
  | nil => rfl
  | cons a as ih => simp [mapFrom, ih]

theorem mapFrom_append (f : ℕ → α → β) (s : ℕ) (l₁ l₂ : List α) :
    mapFrom f s (l₁ ++ l₂) = mapFrom f s l₁ ++ mapFrom f (s + l₁.length) l₂ := by
  induction l₁ generalizing s with
  | nil => simp [mapFrom]
  | cons a as ih =>
    simp only [List.cons_append, mapFrom, List.length_cons]
    rw [show (as.append l₂) = as ++ l₂ from rfl, ih (s + 1)]
    have e : s + 1 + as.length = s + (as.length + 1) := by omega
    rw [e]

theorem mapFrom_take_drop (f : ℕ → α → β) (s n : ℕ) (l : List α) :
    mapFrom f s l
      = mapFrom f s (l.take n) ++ mapFrom f (s + (l.take n).length) (l.drop n) := by
  conv_lhs => rw [← List.take_append_drop n l]
  exact mapFrom_append f s _ _

theorem mem_mapFrom {f : ℕ → α → β} {s : ℕ} {l : List α} {b : β}
    (h : b ∈ mapFrom f s l) : ∃ i a, l[i]? = some a ∧ b = f (s + i) a := by
  induction l generalizing s with
  | nil => simp [mapFrom] at h
  | cons x xs ih =>
    simp only [mapFrom, List.mem_cons] at h
    rcases h with h | h
    · exact ⟨0, x, by simp, by simpa using h⟩
    · obtain ⟨i, a, ha, hb⟩ := ih h
      exact ⟨i + 1, a, by simpa using ha, by rw [hb]; ring_nf⟩


theorem round_mono_q {a b : ℚ} (h : a ≤ b) : round a ≤ round b := by
  rw [round_eq, round_eq]
  exact Int.floor_le_floor (by linarith)

theorem round3_pos {q : ℚ} (h : 1 / 1000 ≤ q) : 0 < round3 q := by
  have h1 : ((1 : ℚ)) ≤ q * 1000 := by linarith
  have h2 : (1 : ℤ) ≤ round (q * 1000) := by
    have := round_mono_q h1
    simpa using this
  have : (1 : ℚ) ≤ ((round (q * 1000) : ℤ) : ℚ) := by exact_mod_cast h2
  unfold round3
  positivity

theorem round3_half_pos : 0 < round3 (1 / 2) := round3_pos (by norm_num)


theorem chunkLoop_eq_aux (bs : ℕ) (hbs : 0 < bs) (rowAt : ℕ → String → R)
    (chunkErr : String → R) (cf : ℕ → Bool) :
    ∀ n (ts : List String) (c : ℕ), ts.length ≤ n →
      chunkLoop bs rowAt chunkErr cf c (bs * c) ts
        = mapFrom (fun i t => if cf (i / bs) then chunkErr t else rowAt i t)
            (bs * c) ts := by
  intro n
  induction n with
  | zero =>
    intro ts c h
    have : ts = [] := List.length_eq_zero.mp (Nat.le_zero.mp h)
    subst this
    simp [chunkLoop, mapFrom]
  | succ n ih =>
    intro ts c h
    cases ts with
    | nil => simp [chunkLoop, mapFrom]
    | cons t ts' =>
      rw [chunkLoop, dif_neg (Nat.pos_iff_ne_zero.mp hbs)]
      rw [mapFrom_take_drop _ (bs * c) bs (t :: ts')]
      have hdiv : ∀ i, i < bs → (bs * c + i) / bs = c := by
        intro i hi
        rw [Nat.mul_add_div hbs, Nat.div_eq_of_lt hi]
        rfl
      have hhead :
          (if cf c then ((t :: ts').take bs).map chunkErr
           else mapFrom rowAt (bs * c) ((t :: ts').take bs))
            = mapFrom (fun i t => if cf (i / bs) then chunkErr t else rowAt i t)
                (bs * c) ((t :: ts').take bs) := by
        have hlt : ((t :: ts').take bs).length ≤ bs := by
          simp [List.length_take]
        cases hcf : cf c with
        | true =>
          rw [if_pos rfl]
          rw [← mapFrom_const chunkErr (bs * c) ((t :: ts').take bs)]
          refine mapFrom_congr (bs * c) _ fun i a hi => ?_
          rw [hdiv i (lt_of_lt_of_le hi hlt), hcf, if_pos rfl]
        | false =>
          rw [if_neg (by simp [hcf])]
          refine mapFrom_congr (bs * c) _ fun i a hi => ?_
          rw [hdiv i (lt_of_lt_of_le hi hlt), hcf]
          simp
      rw [hhead]
      congr 1
      by_cases hlen : (t :: ts').length ≤ bs
      · have hdrop : (t :: ts').drop bs = [] := by
          apply List.drop_eq_nil_of_le hlen
        rw [hdrop]
        simp [chunkLoop, mapFrom]
      · push_neg at hlen
        have htake : ((t :: ts').take bs).length = bs := by
          simp only [List.length_take, List.length_cons]
          simp only [List.length_cons] at hlen
          omega
        rw [htake]
        have hrec : bs * c + bs = bs * (c + 1) := by ring
        rw [hrec]
        have hlen' : ((t :: ts').drop bs).length ≤ n := by
          simp only [List.length_drop, List.length_cons]
          simp only [List.length_cons] at h
          omega
        exact ih ((t :: ts').drop bs) (c + 1) hlen'

theorem chunkLoop_eq (bs : ℕ) (hbs : 0 < bs) (rowAt : ℕ → String → R)
    (chunkErr : String → R) (cf : ℕ → Bool) (ts : List String) :
    chunkLoop bs rowAt chunkErr cf 0 0 ts
      = mapFrom (fun i t => if cf (i / bs) then chunkErr t else rowAt i t) 0 ts := by
  have := chunkLoop_eq_aux bs hbs rowAt chunkErr cf ts.length ts 0 le_rfl
  simpa using this


example :
    LightweightSentimentAnalyzer.analyze "I love this, it's great!"
      = ("Positive", 9/10) := by
  have h : LightweightSentimentAnalyzer.scores "I love this, it's great!"
      = (5, 0) := by decide
  simp [LightweightSentimentAnalyzer.analyze, threeClass, h]
  norm_num

example :
    LightweightSentimentAnalyzer.analyze "Absolutely terrible service."
      = ("Negative", 8/10) := by
  have h : LightweightSentimentAnalyzer.scores "Absolutely terrible service."
      = (0, 2) := by decide
  simp [LightweightSentimentAnalyzer.analyze, threeClass, h]
  norm_num

example :
    LightweightSentimentAnalyzer.analyze "It arrived on Tuesday."
      = ("Neutral", 1/2) := by
  have h : LightweightSentimentAnalyzer.scores "It arrived on Tuesday."
      = (0, 0) := by decide
  simp [LightweightSentimentAnalyzer.analyze, threeClass, h]


/-! ### Properties of the classification arms -/

theorem threeClass_label (s : ℕ × ℕ) :
    (threeClass s).1 = "Positive" ∨ (threeClass s).1 = "Negative"
      ∨ (threeClass s).1 = "Neutral" := by
  unfold threeClass
  split_ifs <;> simp

theorem threeClass_pos_iff (s : ℕ × ℕ) :
    (threeClass s).1 = "Positive" ↔ s.2 < s.1 := by
  unfold threeClass
  split_ifs with h1 h2
  · exact iff_of_true rfl h1
  · exact iff_of_false (by simp) h1
  · exact iff_of_false (by simp) h1

theorem threeClass_neg_iff (s : ℕ × ℕ) :
    (threeClass s).1 = "Negative" ↔ s.1 < s.2 := by
  unfold threeClass
  split_ifs with h1 h2
  · exact iff_of_false (by simp) (lt_asymm h1)
  · exact iff_of_true rfl h2
  · exact iff_of_false (by simp) h2

theorem threeClass_neutral_iff (s : ℕ × ℕ) :
    (threeClass s).1 = "Neutral" ↔ s.1 = s.2 := by
  unfold threeClass
  split_ifs with h1 h2
  · exact iff_of_false (by simp) (by omega)
  · exact iff_of_false (by simp) (by omega)
  · exact iff_of_true rfl (by omega)

theorem threeClass_conf_posBranch (s : ℕ × ℕ) (h : s.2 < s.1) :
    (threeClass s).2 = min (9/10) (6/10 + ((s.1 - s.2 : ℕ) : ℚ) * (1/10)) := by
  unfold threeClass
  rw [if_pos h]

theorem threeClass_conf_negBranch (s : ℕ × ℕ) (h : s.1 < s.2) :
    (threeClass s).2 = min (9/10) (6/10 + ((s.2 - s.1 : ℕ) : ℚ) * (1/10)) := by
  unfold threeClass
  rw [if_neg (lt_asymm h), if_pos h]

theorem threeClass_conf_neutral (s : ℕ × ℕ) (h : s.1 = s.2) :
    (threeClass s).2 = 1/2 := by
  unfold threeClass
  rw [if_neg (by omega), if_neg (by omega)]

theorem threeClass_conf_ge_half (s : ℕ × ℕ) : 1/2 ≤ (threeClass s).2 := by
  unfold threeClass
  split_ifs with h1 h2
  · refine le_min (by norm_num) ?_
    have : (0:ℚ) ≤ ((s.1 - s.2 : ℕ) : ℚ) * (1/10) := by positivity
    linarith
  · refine le_min (by norm_num) ?_
    have : (0:ℚ) ≤ ((s.2 - s.1 : ℕ) : ℚ) * (1/10) := by positivity
    linarith
  · norm_num

theorem threeClass_conf_pos (s : ℕ × ℕ) : 0 < (threeClass s).2 :=
  lt_of_lt_of_le (by norm_num) (threeClass_conf_ge_half s)

theorem threeClass_conf_le (s : ℕ × ℕ) : (threeClass s).2 ≤ 9/10 := by
  unfold threeClass
  split_ifs with h1 h2
  · exact min_le_left _ _
  · exact min_le_left _ _
  · norm_num

/-- The confidence formula of the lightweight/emergency arm is monotone in
the score margin (and likewise capped): "confidence scales with the margin". -/
theorem conf_margin_mono :
    Monotone (fun m : ℕ => min ((9:ℚ)/10) (6/10 + (m : ℚ) * (1/10))) := by
  intro a b hab
  refine min_le_min le_rfl ?_
  have : ((a : ℚ)) ≤ (b : ℚ) := by exact_mod_cast hab
  nlinarith

theorem universal_classify_conf_ge_half (s : ℕ × ℕ) :
    1/2 ≤ (UniversalBatchProcessor.classify s).2 := by
  unfold UniversalBatchProcessor.classify
  split_ifs with h1 h2
  · refine le_min (by norm_num) ?_
    have : (0:ℚ) ≤ ((s.1 - s.2 : ℕ) : ℚ) * (1/20) := by positivity
    linarith
  · refine le_min (by norm_num) ?_
    have : (0:ℚ) ≤ ((s.2 - s.1 : ℕ) : ℚ) * (1/20) := by positivity
    linarith
  · norm_num

theorem universal_conf_ge_half (t : String) :
    1/2 ≤ (UniversalBatchProcessor.analyze_sentiment_optimized t).2 := by
  unfold UniversalBatchProcessor.analyze_sentiment_optimized
  split_ifs with h0
  · norm_num
  · exact universal_classify_conf_ge_half _

theorem mapScore_cases (score : ℤ) :
    mapScore score = "Very Negative" ∨ mapScore score = "Negative"
      ∨ mapScore score = "Neutral" ∨ mapScore score = "Positive"
      ∨ mapScore score = "Very Positive" := by
  unfold mapScore
  split_ifs <;> simp

theorem mapScore_ne_failed (score : ℤ) :
    mapScore score ≠ "Analysis Failed" ∧ mapScore score ≠ "Batch Failed" := by
  rcases mapScore_cases score with h | h | h | h | h <;>
    exact ⟨by rw [h]; decide, by rw [h]; decide⟩

/-! ### Characterizations of the batch processors -/

theorem get_batch_size_pos (detection : List String) (n : ℕ) :
    0 < UniversalBatchProcessor.get_batch_size detection n := by
  unfold UniversalBatchProcessor.get_batch_size
  split_ifs <;> norm_num

theorem is_cloud_true (detection : List String) : is_cloud detection = true := by
  unfold is_cloud force_deployment_optimization
  simp

theorem process_deployment_eq (fail : ℕ → Bool) (texts : List String) :
    process_batch_deployment_safe fail texts
      = mapFrom (fun i t => if fail i then deploymentErrRow t
          else deploymentOkRow t) 0
          (if 100 < texts.length then texts.take 100 else texts) := by
  unfold process_batch_deployment_safe
  by_cases h : texts.isEmpty
  · rw [if_pos h]
    have h0 : texts = [] := by
      cases texts with
      | nil => rfl
      | cons a as => simp [List.isEmpty] at h
    subst h0
    rfl
  · rw [if_neg h]

theorem process_emergency_eq (setOrder : List (List Char) → List (List Char))
    (fail : ℕ → Bool) (texts : List String) :
    emergency_batch_processor setOrder fail texts
      = mapFrom (fun i t => if fail i then emergencyErrRow t
          else emergencyOkRow setOrder t) 0
          (if 50 < texts.length then texts.take 50 else texts) := by
  unfold emergency_batch_processor
  by_cases h : texts.isEmpty
  · rw [if_pos h]
    have h0 : texts = [] := by
      cases texts with
      | nil => rfl
      | cons a as => simp [List.isEmpty] at h
    subst h0
    rfl
  · rw [if_neg h]

theorem process_universal_eq (detection : List String) (fail : ℕ → Bool)
    (texts : List String) :
    (process_universal_batch detection fail texts).1
      = mapFrom (fun i t => if fail i then universalErrRow t
          else universalOkRow t) 0
          (if is_cloud detection && decide (200 < texts.length) then
             texts.take 200 else texts)
    ∧ (process_universal_batch detection fail texts).2
      = (is_cloud detection && decide (200 < texts.length)) := by
  unfold process_universal_batch
  by_cases h : texts.isEmpty
  · rw [if_pos h]
    have h0 : texts = [] := by
      cases texts with
      | nil => rfl
      | cons a as => simp [List.isEmpty] at h
    subst h0
    simp [mapFrom]
  · rw [if_neg h]
    refine ⟨?_, rfl⟩
    show chunkLoop _ _ _ _ 0 0 _ = _
    rw [chunkLoop_eq _ (get_batch_size_pos _ _)]
    refine mapFrom_congr 0 _ fun i a hi => ?_
    simp

theorem process_batch_eq (modelOut : ℕ → String × ℚ)
    (kwOut : ℕ → Option (List String)) (chunkFail : ℕ → Bool)
    (texts : List String) :
    BatchProcessor.process_batch modelOut kwOut chunkFail texts
      = mapFrom (fun i t => if chunkFail (i / 16) then batchFailedRow t
          else fullItemRow modelOut kwOut i t) 0 texts := by
  unfold BatchProcessor.process_batch
  by_cases h : texts.isEmpty
  · rw [if_pos h]
    have h0 : texts = [] := by
      cases texts with
      | nil => rfl
      | cons a as => simp [List.isEmpty] at h
    subst h0
    rfl
  · rw [if_neg h]
    exact chunkLoop_eq 16 (by norm_num) _ _ _ _

/-! ### Properties of the timed cache -/

theorem find?_map_insert {α : Type} (k : String) (v : α × ℚ) :
    ∀ es : List (String × α × ℚ), es.any (fun e => e.1 == k) = true →
      ((es.map (fun e => if e.1 == k then (k, v) else e)).find?
        (fun e => e.1 == k)) = some (k, v) := by
  intro es
  induction es with
  | nil => intro h; simp at h
  | cons e es' ih =>
    intro h
    simp only [List.map_cons]
    by_cases he : (e.1 == k) = true
    · rw [if_pos he]
      have hk : (((k, v) : String × α × ℚ).1 == k) = true := beq_self_eq_true k
      simp [hk]
    · rw [if_neg he]
      rw [List.find?_cons_of_neg _ (by simpa using he)]
      apply ih
      simpa [he] using h

theorem lookup_insertEntry {α : Type} (es : List (String × α × ℚ))
    (k : String) (v : α × ℚ) :
    lookupEntry ⟨insertEntry es k v⟩ k = some v := by
  unfold lookupEntry insertEntry
  by_cases hany : es.any (fun e => e.1 == k) = true
  · rw [if_pos hany, find?_map_insert k v es hany]
    rfl
  · rw [if_neg hany, List.find?_append]
    have hnone : es.find? (fun e => e.1 == k) = none := by
      rw [List.find?_eq_none]
      intro x hx hbeq
      exact hany (List.any_eq_true.mpr ⟨x, hx, hbeq⟩)
    rw [hnone]
    simp

theorem length_insertEntry_le {α : Type} (es : List (String × α × ℚ))
    (k : String) (v : α × ℚ) :
    (insertEntry es k v).length ≤ es.length + 1 := by
  unfold insertEntry
  split_ifs <;> simp

theorem foldl_min_mem {α : Type} (es : List (String × α × ℚ))
    (b : String × α × ℚ) :
    es.foldl (fun b x => if x.2.2 < b.2.2 then x else b) b ∈ b :: es := by
  induction es generalizing b with
  | nil => simp
  | cons x xs ih =>
    simp only [List.foldl_cons]
    by_cases hx : x.2.2 < b.2.2
    · rw [if_pos hx]
      have h := ih x
      rcases List.mem_cons.mp h with h | h
      · rw [h]
        simp
      · simp [h]
    · rw [if_neg hx]
      have h := ih b
      rcases List.mem_cons.mp h with h | h
      · rw [h]
        simp
      · simp [h]

theorem length_evictOldest {α : Type} (es : List (String × α × ℚ))
    (h : es ≠ []) : (evictOldest es).length = es.length - 1 := by
  unfold evictOldest oldestEntry
  cases es with
  | nil => exact absurd rfl h
  | cons e es' =>
    simp only
    have hx : (es'.foldl (fun b x => if x.2.2 < b.2.2 then x else b) e)
        ∈ e :: es' := foldl_min_mem es' e
    exact List.length_eraseP_of_mem hx (by simp)

theorem cachedMiss_length_le {α : Type} (fn : String → α) (max_size : ℕ)
    (st : TimedCache α) (k : String) (tS : ℚ)
    (hms : 1 ≤ max_size) (hst : st.entries.length ≤ max_size) :
    (cachedMiss fn max_size st k tS).state.entries.length ≤ max_size := by
  unfold cachedMiss
  by_cases hfull : max_size ≤ st.entries.length
  · have hne : st.entries ≠ [] := by
      intro h0
      rw [h0] at hfull
      simp at hfull
      omega
    rw [if_pos hfull]
    calc (insertEntry (evictOldest st.entries) k (fn k, tS)).length
        ≤ (evictOldest st.entries).length + 1 := length_insertEntry_le _ _ _
      _ = st.entries.length - 1 + 1 := by rw [length_evictOldest _ hne]
      _ ≤ max_size := by omega
  · push_neg at hfull
    rw [if_neg (by omega)]
    calc (insertEntry st.entries k (fn k, tS)).length
        ≤ st.entries.length + 1 := length_insertEntry_le _ _ _
      _ ≤ max_size := by omega

theorem cachedCall_state_cases {α : Type} (fn : String → α) (ttl : ℚ)
    (max_size : ℕ) (st : TimedCache α) (k : String) (tC tS : ℚ) :
    (cachedCall fn ttl max_size st k tC tS).state = st
    ∨ (cachedCall fn ttl max_size st k tC tS)
        = cachedMiss fn max_size st k tS := by
  unfold cachedCall
  cases hlk : lookupEntry st k with
  | none => right; rfl
  | some p =>
    obtain ⟨r, ts⟩ := p
    by_cases hf : tC - ts < ttl
    · left
      show (if tC - ts < ttl then
          ({ value := r, state := st, invoked := false } : CallResult α)
        else cachedMiss fn max_size st k tS).state = st
      rw [if_pos hf]
    · right
      show (if tC - ts < ttl then
          ({ value := r, state := st, invoked := false } : CallResult α)
        else cachedMiss fn max_size st k tS) = cachedMiss fn max_size st k tS
      rw [if_neg hf]

theorem cachedCall_length_le {α : Type} (fn : String → α) (ttl : ℚ)
    (max_size : ℕ) (st : TimedCache α) (k : String) (tC tS : ℚ)
    (hms : 1 ≤ max_size) (hst : st.entries.length ≤ max_size) :
    (cachedCall fn ttl max_size st k tC tS).state.entries.length ≤ max_size := by
  rcases cachedCall_state_cases fn ttl max_size st k tC tS with h | h
  · rw [h]
    exact hst
  · rw [h]
    exact cachedMiss_length_le fn max_size st k tS hms hst

theorem runCalls_length_le {α : Type} (fn : String → α) (ttl : ℚ)
    (max_size : ℕ) (hms : 1 ≤ max_size) :
    ∀ (calls : List (String × ℚ × ℚ)) (st : TimedCache α),
      st.entries.length ≤ max_size →
      (runCalls fn ttl max_size st calls).entries.length ≤ max_size := by
  intro calls
  induction calls with
  | nil =>
    intro st h
    exact h
  | cons c rest ih =>
    intro st h
    obtain ⟨k, t1, t2⟩ := c
    exact ih _ (cachedCall_length_le fn ttl max_size st k t1 t2 hms h)

theorem map_id_of_mem {γ : Type} {l : List γ} {f : γ → γ}
    (h : ∀ x ∈ l, f x = x) : l.map f = l := by
  induction l with
  | nil => rfl
  | cons x xs ih =>
    simp only [List.map_cons]
    rw [h x (by simp), ih fun y hy => h y (by simp [hy])]

theorem int32cast_eq_self {i : ℤ} (h1 : -(2^31) ≤ i) (h2 : i < 2^31) :
    int32cast i = i := by
  unfold int32cast
  have h3 : (0:ℤ) ≤ i + 2^31 := by omega
  have h4 : i + 2^31 < 2^32 := by omega
  rw [Int.emod_eq_of_lt h3 h4]
  omega

theorem universal_label (t : String) :
    (UniversalBatchProcessor.analyze_sentiment_optimized t).1 = "Positive"
    ∨ (UniversalBatchProcessor.analyze_sentiment_optimized t).1 = "Negative"
    ∨ (UniversalBatchProcessor.analyze_sentiment_optimized t).1 = "Neutral" := by
  unfold UniversalBatchProcessor.analyze_sentiment_optimized
    UniversalBatchProcessor.classify
  split_ifs <;> simp

theorem deploymentOkRow_sentiment_ne (t : String) :
    (deploymentOkRow t).sentiment ≠ "Error" := by
  have h : (deploymentOkRow t).sentiment
      = (threeClass (LightweightSentimentAnalyzer.scores (truncatePy 500 t))).1 :=
    rfl
  rw [h]
  rcases threeClass_label (LightweightSentimentAnalyzer.scores
    (truncatePy 500 t)) with h' | h' | h' <;> rw [h'] <;> decide

theorem deploymentOkRow_conf_pos (t : String) :
    0 < (deploymentOkRow t).confidence :=
  threeClass_conf_pos (LightweightSentimentAnalyzer.scores (truncatePy 500 t))

theorem universalOkRow_sentiment_ne (t : String) :
    (universalOkRow t).sentiment ≠ "Error" := by
  have h : (universalOkRow t).sentiment
      = (UniversalBatchProcessor.analyze_sentiment_optimized
          (truncatePy 1000 t)).1 := rfl
  rw [h]
  rcases universal_label (truncatePy 1000 t) with h' | h' | h' <;>
    rw [h'] <;> decide

theorem universalOkRow_conf_pos (t : String) :
    0 < (universalOkRow t).confidence :=
  round3_pos (le_trans (by norm_num) (universal_conf_ge_half (truncatePy 1000 t)))

theorem emergencyOkRow_sentiment_ne
    (setOrder : List (List Char) → List (List Char)) (t : String) :
    (emergencyOkRow setOrder t).sentiment ≠ "Error" := by
  have h : (emergencyOkRow setOrder t).sentiment
      = (threeClass (emergencyScores (truncatePy 300 t))).1 := rfl
  rw [h]
  rcases threeClass_label (emergencyScores (truncatePy 300 t)) with h' | h' | h' <;>
    rw [h'] <;> decide

theorem emergencyOkRow_conf_pos
    (setOrder : List (List Char) → List (List Char)) (t : String) :
    0 < (emergencyOkRow setOrder t).confidence :=
  round3_pos (le_trans (by norm_num)
    (threeClass_conf_ge_half (emergencyScores (truncatePy 300 t))))

theorem fullItemRow_cases (modelOut : ℕ → String × ℚ)
    (kwOut : ℕ → Option (List String)) (i : ℕ) (t : String) :
    fullItemRow modelOut kwOut i t = analysisFailedRow t
    ∨ ∃ score, parseScore (modelOut i).1 = some score
        ∧ (fullItemRow modelOut kwOut i t).sentiment = mapScore score
        ∧ (fullItemRow modelOut kwOut i t).confidence
            = round3 (modelOut i).2 := by
  unfold fullItemRow
  cases h : parseScore (modelOut i).1 with
  | none => left; rfl
  | some score => right; exact ⟨score, rfl, rfl, rfl⟩

/-! ## The claims -/

/-- C5: for every function wrapped by the timed cache, a first call on a key
not in the cache invokes the function and stores the result; a second call
with the identical argument whose age `t2 - t1'` is still below the TTL
returns the stored result without invoking the function again (so the
function is invoked exactly once across the two calls), and a call whose age
has reached the TTL recomputes (invokes the function again). -/
theorem claim_cache_idempotence {α : Type} (fn : String → α) (ttl : ℚ)
    (max_size : ℕ) (st : TimedCache α) (k : String)
    (t1 t1' t2 t2' t3 t3' : ℚ)
    (hfresh : lookupEntry st k = none)
    (hlive : t2 - t1' < ttl) (hexpired : ttl ≤ t3 - t1') :
    (cachedCall fn ttl max_size st k t1 t1').invoked = true
    ∧ (cachedCall fn ttl max_size st k t1 t1').value = fn k
    ∧ (cachedCall fn ttl max_size
        (cachedCall fn ttl max_size st k t1 t1').state k t2 t2').value = fn k
    ∧ (cachedCall fn ttl max_size
        (cachedCall fn ttl max_size st k t1 t1').state k t2 t2').invoked
          = false
    ∧ (cachedCall fn ttl max_size
        (cachedCall fn ttl max_size st k t1 t1').state k t3 t3').invoked
          = true := by
  have hcall1 : cachedCall fn ttl max_size st k t1 t1'
      = cachedMiss fn max_size st k t1' := by
    unfold cachedCall
    simp only [hfresh]
  set st1 := (cachedCall fn ttl max_size st k t1 t1').state with hst1
  have hstate1 : lookupEntry st1 k = some (fn k, t1') := by
    rw [hst1, hcall1]
    unfold cachedMiss
    exact lookup_insertEntry _ k _
  refine ⟨by rw [hcall1]; rfl, by rw [hcall1]; rfl, ?_, ?_, ?_⟩
  · unfold cachedCall
    simp only [hstate1]
    rw [if_pos hlive]
  · unfold cachedCall
    simp only [hstate1]
    rw [if_pos hlive]
  · unfold cachedCall
    simp only [hstate1]
    rw [if_neg (not_lt.mpr hexpired)]
    rfl

/-- C5 witness: a concrete two-call run at a fresh key inside the TTL window
and a third call past the TTL. -/
theorem claim_cache_idempotence_witness :
    lookupEntry (⟨[]⟩ : TimedCache ℕ) "k" = none
    ∧ ((1 : ℚ) - 0 < 3600) ∧ ((3600 : ℚ) ≤ 4000 - 0)
    ∧ (cachedCall (fun _ => 7) 3600 1000 (⟨[]⟩ : TimedCache ℕ)
        "k" 0 0).invoked = true
    ∧ (cachedCall (fun _ => 7) 3600 1000
        (cachedCall (fun _ => 7) 3600 1000 (⟨[]⟩ : TimedCache ℕ)
          "k" 0 0).state "k" 1 1).invoked = false := by
  have h := claim_cache_idempotence (fun _ => (7 : ℕ)) 3600 1000 ⟨[]⟩ "k"
    0 0 1 1 4000 4000 rfl (by norm_num) (by norm_num)
  exact ⟨rfl, by norm_num, by norm_num, h.1, h.2.2.2.1⟩

/-- C9: for every function wrapped by the timed cache with a positive
`max_size`, after any sequence of calls starting from the empty cache the
cache holds at most `max_size` entries (the oldest-timestamped entry is
evicted before a new result is stored whenever the bound has been reached). -/
theorem claim_cache_size_bound {α : Type} (fn : String → α) (ttl : ℚ)
    (max_size : ℕ) (hms : 1 ≤ max_size) (calls : List (String × ℚ × ℚ)) :
    (runCalls fn ttl max_size ⟨[]⟩ calls).entries.length ≤ max_size :=
  runCalls_length_le fn ttl max_size hms calls ⟨[]⟩ (by simp)

/-- C9 witness: three distinct keys through a cache of capacity 2. -/
theorem claim_cache_size_bound_witness :
    1 ≤ 2
    ∧ (runCalls (fun _ => (0 : ℕ)) 10 2 ⟨[]⟩
        [("a", 0, 0), ("b", 1, 1), ("c", 2, 2)]).entries.length ≤ 2 :=
  ⟨by norm_num,
   claim_cache_size_bound (fun _ => (0 : ℕ)) 10 2 (by norm_num)
     [("a", 0, 0), ("b", 1, 1), ("c", 2, 2)]⟩

/-- C6: for each known model name, the first `get_model` call performs the
acquisition and stores the model; every later call with the same name returns
the stored object without attempting acquisition; if acquisition raises, the
error propagates, nothing is cached and no retry happens in that call, while
a later call attempts the acquisition afresh (and succeeds if the loader now
does). -/
theorem claim_model_manager_memoization {μ : Type}
    (load load' : String → Option μ) (models : List (String × μ))
    (name : String) (m : μ)
    (hname : name = "sentiment" ∨ name = "keyword")
    (hfresh : models.find? (fun e => e.1 == name) = none) :
    (load name = some m →
      ModelManager.get_model load models name
          = (Except.ok m, models ++ [(name, m)], true)
        ∧ ∀ load₂ : String → Option μ,
            ModelManager.get_model load₂ (models ++ [(name, m)]) name
              = (Except.ok m, models ++ [(name, m)], false))
    ∧ (load name = none →
      ModelManager.get_model load models name
          = (Except.error GetModelErr.acquisition, models, true)
        ∧ (load' name = some m →
            ModelManager.get_model load' models name
              = (Except.ok m, models ++ [(name, m)], true))) := by
  have hstep : ∀ ld : String → Option μ, ld name = some m →
      ModelManager.get_model ld models name
        = (Except.ok m, models ++ [(name, m)], true) := by
    intro ld hld
    unfold ModelManager.get_model
    simp only [hfresh, hld]
    rw [if_pos hname]
  have hhit : ∀ load₂ : String → Option μ,
      ModelManager.get_model load₂ (models ++ [(name, m)]) name
        = (Except.ok m, models ++ [(name, m)], false) := by
    intro load₂
    unfold ModelManager.get_model
    have hf : (models ++ [(name, m)]).find? (fun e => e.1 == name)
        = some (name, m) := by
      rw [List.find?_append, hfresh]
      simp
    simp only [hf]
  constructor
  · intro hld
    exact ⟨hstep load hld, hhit⟩
  · intro hld
    refine ⟨?_, fun h2 => hstep load' h2⟩
    unfold ModelManager.get_model
    simp only [hfresh, hld]
    rw [if_pos hname]

/-- C6 witness: a fresh cache, a loader that succeeds, the stored model being
returned without re-acquisition on the second call. -/
theorem claim_model_manager_memoization_witness :
    ("sentiment" = "sentiment" ∨ "sentiment" = "keyword")
    ∧ (List.find? (fun e => e.1 == "sentiment")
        ([] : List (String × ℕ)) = none)
    ∧ ModelManager.get_model (fun _ => some 5) ([] : List (String × ℕ))
        "sentiment" = (Except.ok 5, [("sentiment", 5)], true)
    ∧ ModelManager.get_model (fun _ => some 5) [("sentiment", 5)]
        "sentiment" = (Except.ok 5, [("sentiment", 5)], false) := by
  have h := claim_model_manager_memoization (fun _ => some (5 : ℕ))
    (fun _ => some 5) [] "sentiment" 5 (Or.inl rfl) rfl
  have h1 := (h.1 rfl).1
  have h2 := (h.1 rfl).2 (fun _ => some 5)
  exact ⟨Or.inl rfl, rfl, by simpa using h1, by simpa using h2⟩

/-- C10: calling `get_model` with any name other than "sentiment" or
"keyword" raises `KeyError` (neither a model nor a clean failure value) and
leaves the process-wide model cache unchanged — no entry is created for the
unknown name (the hypothesis that all cached keys are known holds for every
reachable cache state). -/
theorem claim_model_manager_unknown_key {μ : Type} (load : String → Option μ)
    (models : List (String × μ)) (name : String)
    (hn1 : name ≠ "sentiment") (hn2 : name ≠ "keyword")
    (hkeys : ∀ e ∈ models, e.1 = "sentiment" ∨ e.1 = "keyword") :
    ModelManager.get_model load models name
      = (Except.error GetModelErr.keyNotFound, models, false) := by
  have hfind : models.find? (fun e => e.1 == name) = none := by
    rw [List.find?_eq_none]
    intro e he hbe
    have heq : e.1 = name := by simpa using hbe
    rcases hkeys e he with h | h
    · exact hn1 (by rw [← heq, h])
    · exact hn2 (by rw [← heq, h])
  unfold ModelManager.get_model
  simp only [hfind]
  rw [if_neg (not_or.mpr ⟨hn1, hn2⟩)]

/-- C10 witness: the unknown name "embeddings" against the empty cache. -/
theorem claim_model_manager_unknown_key_witness :
    ("embeddings" : String) ≠ "sentiment"
    ∧ ("embeddings" : String) ≠ "keyword"
    ∧ ModelManager.get_model (fun _ => some 5) ([] : List (String × ℕ))
        "embeddings" = (Except.error GetModelErr.keyNotFound, [], false) :=
  ⟨by decide, by decide,
   claim_model_manager_unknown_key (fun _ => some 5) [] "embeddings"
     (by decide) (by decide) (by simp)⟩

/-- C7: the heuristic fallback analyzers — the lightweight tier's
`LightweightSentimentAnalyzer.analyze` and the emergency tier's inline
analysis — return only the 3-class labels Positive/Negative/Neutral (never a
"Very" tier); the label is Positive exactly when the positive score strictly
exceeds the negative one and Negative exactly in the opposite case, with
confidence `min(0.9, 0.6 + margin * 0.1)` — monotone in the margin and
capped at 0.9 — and Neutral with confidence exactly 0.5 otherwise. -/
theorem claim_heuristic_three_class (t : String) :
    (((LightweightSentimentAnalyzer.analyze t).1 = "Positive"
        ∨ (LightweightSentimentAnalyzer.analyze t).1 = "Negative"
        ∨ (LightweightSentimentAnalyzer.analyze t).1 = "Neutral")
      ∧ ((LightweightSentimentAnalyzer.analyze t).1 = "Positive"
          ↔ (LightweightSentimentAnalyzer.scores t).2
              < (LightweightSentimentAnalyzer.scores t).1)
      ∧ ((LightweightSentimentAnalyzer.analyze t).1 = "Negative"
          ↔ (LightweightSentimentAnalyzer.scores t).1
              < (LightweightSentimentAnalyzer.scores t).2)
      ∧ ((LightweightSentimentAnalyzer.analyze t).1 = "Neutral"
          ↔ (LightweightSentimentAnalyzer.scores t).1
              = (LightweightSentimentAnalyzer.scores t).2)
      ∧ ((LightweightSentimentAnalyzer.scores t).2
            < (LightweightSentimentAnalyzer.scores t).1 →
          (LightweightSentimentAnalyzer.analyze t).2
            = min (9/10) (6/10 + (((LightweightSentimentAnalyzer.scores t).1
                - (LightweightSentimentAnalyzer.scores t).2 : ℕ) : ℚ) * (1/10)))
      ∧ ((LightweightSentimentAnalyzer.scores t).1
            < (LightweightSentimentAnalyzer.scores t).2 →
          (LightweightSentimentAnalyzer.analyze t).2
            = min (9/10) (6/10 + (((LightweightSentimentAnalyzer.scores t).2
                - (LightweightSentimentAnalyzer.scores t).1 : ℕ) : ℚ) * (1/10)))
      ∧ ((LightweightSentimentAnalyzer.analyze t).1 = "Neutral" →
          (LightweightSentimentAnalyzer.analyze t).2 = 1/2)
      ∧ (LightweightSentimentAnalyzer.analyze t).2 ≤ 9/10)
    ∧ (((emergencyAnalyze t).1 = "Positive"
        ∨ (emergencyAnalyze t).1 = "Negative"
        ∨ (emergencyAnalyze t).1 = "Neutral")
      ∧ ((emergencyAnalyze t).1 = "Positive"
          ↔ (emergencyScores t).2 < (emergencyScores t).1)
      ∧ ((emergencyAnalyze t).1 = "Negative"
          ↔ (emergencyScores t).1 < (emergencyScores t).2)
      ∧ ((emergencyAnalyze t).1 = "Neutral"
          ↔ (emergencyScores t).1 = (emergencyScores t).2)
      ∧ ((emergencyScores t).2 < (emergencyScores t).1 →
          (emergencyAnalyze t).2
            = min (9/10) (6/10 + (((emergencyScores t).1
                - (emergencyScores t).2 : ℕ) : ℚ) * (1/10)))
      ∧ ((emergencyScores t).1 < (emergencyScores t).2 →
          (emergencyAnalyze t).2
            = min (9/10) (6/10 + (((emergencyScores t).2
                - (emergencyScores t).1 : ℕ) : ℚ) * (1/10)))
      ∧ ((emergencyAnalyze t).1 = "Neutral" → (emergencyAnalyze t).2 = 1/2)
      ∧ (emergencyAnalyze t).2 ≤ 9/10)
    ∧ Monotone (fun m : ℕ => min ((9:ℚ)/10) (6/10 + (m : ℚ) * (1/10))) := by
  refine ⟨⟨threeClass_label _, threeClass_pos_iff _, threeClass_neg_iff _,
      threeClass_neutral_iff _, fun h => threeClass_conf_posBranch _ h,
      fun h => threeClass_conf_negBranch _ h,
      fun h => threeClass_conf_neutral _ ((threeClass_neutral_iff _).mp h),
      threeClass_conf_le _⟩,
    ⟨threeClass_label _, threeClass_pos_iff _, threeClass_neg_iff _,
      threeClass_neutral_iff _, fun h => threeClass_conf_posBranch _ h,
      fun h => threeClass_conf_negBranch _ h,
      fun h => threeClass_conf_neutral _ ((threeClass_neutral_iff _).mp h),
      threeClass_conf_le _⟩,
    conf_margin_mono⟩

/-- C7 witness: a positive text through the lightweight analyzer and a
negative and a neutral text through the emergency analyzer. -/
theorem claim_heuristic_three_class_witness :
    (LightweightSentimentAnalyzer.scores "I love this, it's great!").2
      < (LightweightSentimentAnalyzer.scores "I love this, it's great!").1
    ∧ (LightweightSentimentAnalyzer.analyze "I love this, it's great!").1
        = "Positive"
    ∧ (emergencyScores "bad service").1 < (emergencyScores "bad service").2
    ∧ (emergencyAnalyze "bad service").1 = "Negative"
    ∧ (emergencyAnalyze "It arrived on Tuesday.").2 = 1/2 := by
  have h1 := claim_heuristic_three_class "I love this, it's great!"
  have h2 := claim_heuristic_three_class "bad service"
  have h3 := claim_heuristic_three_class "It arrived on Tuesday."
  refine ⟨by decide, h1.1.2.1.mpr (by decide), by decide,
    h2.2.1.2.2.1.mpr (by decide), ?_⟩
  exact h3.2.1.2.2.2.2.2.2.1 (h3.2.1.2.2.2.1.mpr (by decide))

/-- C8, as stated, is false on the code: the counterexample is a frame with
one int64 column holding `2^31`, whose value is wrapped to `-2^31` by the
int64→int32 narrowing, so the transform does not leave every observable cell
value unchanged. -/
theorem claim_memory_optimizer_counterexample :
    optimize_memory_usage id
        ⟨[⟨"raw_score", Dtype.int64, [Cell.int (2 ^ 31)]⟩]⟩
      = ⟨[⟨"raw_score", Dtype.int32, [Cell.int (-(2 ^ 31))]⟩]⟩
    ∧ Cell.int (-(2 ^ 31)) ≠ Cell.int (2 ^ 31) :=
  ⟨by decide, by decide⟩

/-- C8 amended: `optimize_memory_usage` is a total (never-raising) transform
that changes only the storage dtypes — object→category, float64→float32,
int64→int32 — preserving column count, names and every cell value, provided
every int64 cell fits the 32-bit range and every float64 cell is fixed by
the float32 conversion; outside those ranges values change (wraparound,
rounding). -/
theorem claim_memory_optimizer_amended (f32 : ℚ → ℚ) (df : Frame)
    (hint : ∀ col ∈ df.cols, col.dtype = Dtype.int64 →
      ∀ c ∈ col.cells, ∀ i : ℤ, c = Cell.int i → -(2^31) ≤ i ∧ i < 2^31)
    (hfl : ∀ col ∈ df.cols, col.dtype = Dtype.float64 →
      ∀ c ∈ col.cells, ∀ q : ℚ, c = Cell.float q → f32 q = q) :
    (optimize_memory_usage f32 df).cols.length = df.cols.length
    ∧ ∀ (i : ℕ) (col : Col), df.cols[i]? = some col →
        (optimize_memory_usage f32 df).cols[i]?
          = some { col with dtype := dtypeAfter col.dtype } := by
  constructor
  · unfold optimize_memory_usage
    simp
  · intro i col hcol
    have hmem : col ∈ df.cols := by
      obtain ⟨hlt, heq⟩ := List.getElem?_eq_some.mp hcol
      rw [← heq]
      exact List.getElem_mem hlt
    unfold optimize_memory_usage
    simp only [List.getElem?_map, hcol, Option.map_some']
    congr 1
    obtain ⟨nm, dt, cells⟩ := col
    cases dt with
    | object => rfl
    | category => rfl
    | float32 => rfl
    | int32 => rfl
    | float64 =>
      have hcells : cells.map (castCellF32 f32) = cells := by
        apply map_id_of_mem
        intro c hc
        cases c with
        | float q =>
          have hq := hfl ⟨nm, Dtype.float64, cells⟩ hmem rfl (Cell.float q) hc q rfl
          simp [castCellF32, hq]
        | str s => rfl
        | int n => rfl
      simp only [hcells]
      rfl
    | int64 =>
      have hcells : cells.map castCellInt32 = cells := by
        apply map_id_of_mem
        intro c hc
        cases c with
        | int n =>
          obtain ⟨hlo, hhi⟩ :=
            hint ⟨nm, Dtype.int64, cells⟩ hmem rfl (Cell.int n) hc n rfl
          simp [castCellInt32, int32cast_eq_self hlo hhi]
        | str s => rfl
        | float q => rfl
      simp only [hcells]
      rfl

/-- C8 amended witness: a two-column frame (object strings, small int64
values) is recast to category/int32 with all values preserved. -/
theorem claim_memory_optimizer_amended_witness :
    (optimize_memory_usage id
        ⟨[⟨"sentiment", Dtype.object, [Cell.str "Positive"]⟩,
          ⟨"raw_score", Dtype.int64, [Cell.int 4]⟩]⟩).cols.length = 2
    ∧ (optimize_memory_usage id
        ⟨[⟨"sentiment", Dtype.object, [Cell.str "Positive"]⟩,
          ⟨"raw_score", Dtype.int64, [Cell.int 4]⟩]⟩).cols[1]?
        = some ⟨"raw_score", Dtype.int32, [Cell.int 4]⟩ := by
  have h := claim_memory_optimizer_amended id
    ⟨[⟨"sentiment", Dtype.object, [Cell.str "Positive"]⟩,
      ⟨"raw_score", Dtype.int64, [Cell.int 4]⟩]⟩
    (by
      intro col hc hdt c hcell i hci
      simp only [List.mem_cons, List.not_mem_nil, or_false] at hc
      rcases hc with rfl | rfl
      · exact absurd hdt (by decide)
      · simp only [List.mem_cons, List.not_mem_nil, or_false] at hcell
        subst hcell
        cases hci
        constructor <;> decide)
    (by
      intro col hc hdt c hcell q hcq
      simp only [List.mem_cons, List.not_mem_nil, or_false] at hc
      rcases hc with rfl | rfl
      · exact absurd hdt (by decide)
      · exact absurd hdt (by decide))
  refine ⟨by rw [h.1]; rfl, ?_⟩
  have h2 := h.2 1 ⟨"raw_score", Dtype.int64, [Cell.int 4]⟩ rfl
  simpa [dtypeAfter] using h2

/-- C1: each batch processor of the heuristic pipeline
(`process_batch_deployment_safe` and `process_universal_batch`) returns
exactly one result row per text actually submitted past its tier ceiling, in
input order: the row at position `i` is the Error-sentinel row for the text
at position `i` when processing that item raises and its successful row
otherwise, so no index is ever dropped and the output row count equals the
submitted input count. -/
theorem claim_row_count_invariant (fail ufail : ℕ → Bool)
    (detection : List String) (texts utexts : List String) :
    (process_batch_deployment_safe fail texts).length
      = (if 100 < texts.length then texts.take 100 else texts).length
    ∧ (∀ (i : ℕ) (t : String),
        (if 100 < texts.length then texts.take 100 else texts)[i]? = some t →
        (process_batch_deployment_safe fail texts)[i]?
          = some (if fail i then deploymentErrRow t else deploymentOkRow t))
    ∧ (process_universal_batch detection ufail utexts).1.length
      = (if is_cloud detection && decide (200 < utexts.length) then
           utexts.take 200 else utexts).length
    ∧ (∀ (i : ℕ) (t : String),
        (if is_cloud detection && decide (200 < utexts.length) then
           utexts.take 200 else utexts)[i]? = some t →
        (process_universal_batch detection ufail utexts).1[i]?
          = some (if ufail i then universalErrRow t else universalOkRow t)) := by
  have hd := process_deployment_eq fail texts
  have hu := (process_universal_eq detection ufail utexts).1
  refine ⟨?_, ?_, ?_, ?_⟩
  · rw [hd, length_mapFrom]
  · intro i t ht
    rw [hd, getElem?_mapFrom, ht]
    simp
  · rw [hu, length_mapFrom]
  · intro i t ht
    rw [hu, getElem?_mapFrom, ht]
    simp

/-- C1 witness: a two-text batch whose second item fails yields two rows with
the sentinel at position 1. -/
theorem claim_row_count_invariant_witness :
    ((if 100 < (["good service", "bad"] : List String).length then
        (["good service", "bad"] : List String).take 100
      else ["good service", "bad"])[1]? = some "bad")
    ∧ (process_batch_deployment_safe (fun i => decide (i = 1))
        ["good service", "bad"]).length = 2
    ∧ (process_batch_deployment_safe (fun i => decide (i = 1))
        ["good service", "bad"])[1]? = some (deploymentErrRow "bad") := by
  have h := claim_row_count_invariant (fun i => decide (i = 1))
    (fun _ => false) [] ["good service", "bad"] []
  refine ⟨rfl, by rw [h.1]; rfl, ?_⟩
  have h2 := h.2.1 1 "bad" rfl
  simpa using h2

/-- C4: the universal processor is always in the Constrained (cloud) regime
because `force_deployment_optimization()` returns True; when the input
exceeds the 200-text ceiling it processes only the first 200 texts and
returns exactly 200 rows — one per admitted text, none for texts 201 onwards
— and reports the count-limited warning. -/
theorem claim_constrained_ceiling (detection : List String) (fail : ℕ → Bool)
    (texts : List String) (h : 200 < texts.length) :
    (process_universal_batch detection fail texts).1.length = 200
    ∧ (process_universal_batch detection fail texts).2 = true
    ∧ (process_universal_batch detection fail texts).1
        = mapFrom (fun i t => if fail i then universalErrRow t
            else universalOkRow t) 0 (texts.take 200) := by
  have hu := process_universal_eq detection fail texts
  have hc : (is_cloud detection && decide (200 < texts.length)) = true := by
    rw [is_cloud_true]
    simp [h]
  refine ⟨?_, ?_, ?_⟩
  · rw [hu.1, hc]
    simp only [if_true]
    rw [length_mapFrom, List.length_take]
    omega
  · rw [hu.2, hc]
  · rw [hu.1, hc]
    simp

/-- C4 witness: 500 identical texts yield exactly 200 rows plus the warning. -/
theorem claim_constrained_ceiling_witness :
    200 < (List.replicate 500 "ok").length
    ∧ (process_universal_batch [] (fun _ => false)
        (List.replicate 500 "ok")).1.length = 200
    ∧ (process_universal_batch [] (fun _ => false)
        (List.replicate 500 "ok")).2 = true := by
  have h := claim_constrained_ceiling [] (fun _ => false)
    (List.replicate 500 "ok") (by rw [List.length_replicate]; norm_num)
  exact ⟨by rw [List.length_replicate]; norm_num, h.1, h.2.1⟩

/-- C2: in every tier of the batch pipeline, a row whose sentiment is the
failure sentinel has confidence exactly 0 and a fixed failure-marker keywords
string, and conversely confidence 0 occurs only on sentinel rows.  In the
three heuristic tiers the sentinel label is "Error" and the marker is
"processing failed"; in the full tier the sentinel labels are
"Analysis Failed" (marker "error") and "Batch Failed" (marker "batch error"),
and the converse needs the model scores to stay at or above 0.001 so that
rounding cannot produce 0. -/
theorem claim_error_sentinel_consistency
    (fail ufail efail : ℕ → Bool) (detection : List String)
    (setOrder : List (List Char) → List (List Char))
    (texts utexts etexts ftexts : List String)
    (modelOut : ℕ → String × ℚ) (kwOut : ℕ → Option (List String))
    (chunkFail : ℕ → Bool)
    (hconf : ∀ i, 1/1000 ≤ (modelOut i).2) :
    (∀ r ∈ process_batch_deployment_safe fail texts,
        (r.sentiment = "Error" ↔ r.confidence = 0)
        ∧ (r.sentiment = "Error" → r.keywords = "processing failed"))
    ∧ (∀ r ∈ (process_universal_batch detection ufail utexts).1,
        (r.sentiment = "Error" ↔ r.confidence = 0)
        ∧ (r.sentiment = "Error" → r.keywords = "processing failed"))
    ∧ (∀ r ∈ emergency_batch_processor setOrder efail etexts,
        (r.sentiment = "Error" ↔ r.confidence = 0)
        ∧ (r.sentiment = "Error" → r.keywords = "processing failed"))
    ∧ (∀ r ∈ BatchProcessor.process_batch modelOut kwOut chunkFail ftexts,
        ((r.sentiment = "Analysis Failed" ∨ r.sentiment = "Batch Failed")
            ↔ r.confidence = 0)
        ∧ (r.sentiment = "Analysis Failed" → r.keywords = "error")
        ∧ (r.sentiment = "Batch Failed" → r.keywords = "batch error")) := by
  refine ⟨?_, ?_, ?_, ?_⟩
  · intro r hr
    rw [process_deployment_eq] at hr
    obtain ⟨i, t, hit, rfl⟩ := mem_mapFrom hr
    by_cases hf : fail (0 + i)
    · rw [if_pos hf]
      exact ⟨iff_of_true rfl rfl, fun _ => rfl⟩
    · rw [if_neg hf]
      refine ⟨iff_of_false (deploymentOkRow_sentiment_ne t) ?_,
        fun hx => absurd hx (deploymentOkRow_sentiment_ne t)⟩
      exact ne_of_gt (deploymentOkRow_conf_pos t)
  · intro r hr
    rw [(process_universal_eq detection ufail utexts).1] at hr
    obtain ⟨i, t, hit, rfl⟩ := mem_mapFrom hr
    by_cases hf : ufail (0 + i)
    · rw [if_pos hf]
      exact ⟨iff_of_true rfl rfl, fun _ => rfl⟩
    · rw [if_neg hf]
      refine ⟨iff_of_false (universalOkRow_sentiment_ne t) ?_,
        fun hx => absurd hx (universalOkRow_sentiment_ne t)⟩
      exact ne_of_gt (universalOkRow_conf_pos t)
  · intro r hr
    rw [process_emergency_eq] at hr
    obtain ⟨i, t, hit, rfl⟩ := mem_mapFrom hr
    by_cases hf : efail (0 + i)
    · rw [if_pos hf]
      exact ⟨iff_of_true rfl rfl, fun _ => rfl⟩
    · rw [if_neg hf]
      refine ⟨iff_of_false (emergencyOkRow_sentiment_ne setOrder t) ?_,
        fun hx => absurd hx (emergencyOkRow_sentiment_ne setOrder t)⟩
      exact ne_of_gt (emergencyOkRow_conf_pos setOrder t)
  · intro r hr
    rw [process_batch_eq] at hr
    obtain ⟨i, t, hit, rfl⟩ := mem_mapFrom hr
    by_cases hcf : chunkFail ((0 + i) / 16)
    · rw [if_pos hcf]
      refine ⟨iff_of_true (Or.inr rfl) rfl, fun hx => ?_, fun _ => rfl⟩
      simp [batchFailedRow] at hx
    · rw [if_neg hcf]
      rcases fullItemRow_cases modelOut kwOut (0 + i) t with hcase | hcase
      · rw [hcase]
        refine ⟨iff_of_true (Or.inl rfl) rfl, fun _ => rfl, fun hx => ?_⟩
        simp [analysisFailedRow] at hx
      · obtain ⟨score, hps, hsent, hcnf⟩ := hcase
        have hne := mapScore_ne_failed score
        have hcpos : 0 < (fullItemRow modelOut kwOut (0 + i) t).confidence := by
          rw [hcnf]
          exact round3_pos (hconf (0 + i))
        refine ⟨iff_of_false ?_ (ne_of_gt hcpos), fun hx => ?_, fun hx => ?_⟩
        · rw [hsent]
          rintro (hx | hx)
          · exact hne.1 hx
          · exact hne.2 hx
        · rw [hsent] at hx
          exact absurd hx hne.1
        · rw [hsent] at hx
          exact absurd hx hne.2

/-- C2 witness: a failing item in the deployment tier produces the Error
sentinel with confidence 0 and the fixed marker. -/
theorem claim_error_sentinel_consistency_witness :
    (∀ i : ℕ, (1:ℚ)/1000 ≤ ((fun _ : ℕ => ("5 stars", (1:ℚ)/2)) i).2)
    ∧ (∀ r ∈ process_batch_deployment_safe (fun _ => true) ["x"],
        (r.sentiment = "Error" ↔ r.confidence = 0)
        ∧ (r.sentiment = "Error" → r.keywords = "processing failed")) := by
  have h := claim_error_sentinel_consistency (fun _ => true) (fun _ => false)
    (fun _ => false) [] id ["x"] [] [] []
    (fun _ => ("5 stars", 1/2)) (fun _ => none) (fun _ => false)
    (by intro i; norm_num)
  exact ⟨by intro i; norm_num, h.1⟩

/-- C3: in full-tier batch processing (16-item chunks), when the model call
for chunk `j` raises, every item of chunk `j` becomes the Batch-Failed
sentinel row; the batch neither aborts nor loses rows (one row per input
text in both runs), and at every position outside chunk `j` the rows are
identical to those of the run in which chunk `j` does not fail. -/
theorem claim_chunk_failure_isolation (modelOut : ℕ → String × ℚ)
    (kwOut : ℕ → Option (List String)) (chunkFail : ℕ → Bool)
    (texts : List String) (j : ℕ) (hj : chunkFail j = true) :
    (BatchProcessor.process_batch modelOut kwOut chunkFail texts).length
      = texts.length
    ∧ (BatchProcessor.process_batch modelOut kwOut
        (fun c => if c = j then false else chunkFail c) texts).length
      = texts.length
    ∧ (∀ (i : ℕ) (t : String), texts[i]? = some t → i / 16 = j →
        (BatchProcessor.process_batch modelOut kwOut chunkFail texts)[i]?
          = some (batchFailedRow t))
    ∧ (∀ i : ℕ, i / 16 ≠ j →
        (BatchProcessor.process_batch modelOut kwOut chunkFail texts)[i]?
          = (BatchProcessor.process_batch modelOut kwOut
              (fun c => if c = j then false else chunkFail c) texts)[i]?) := by
  have h1 := process_batch_eq modelOut kwOut chunkFail texts
  have h2 := process_batch_eq modelOut kwOut
    (fun c => if c = j then false else chunkFail c) texts
  refine ⟨?_, ?_, ?_, ?_⟩
  · rw [h1, length_mapFrom]
  · rw [h2, length_mapFrom]
  · intro i t ht hij
    rw [h1, getElem?_mapFrom, ht]
    simp only [Option.map_some', Nat.zero_add]
    rw [hij, if_pos hj]
  · intro i hij
    rw [h1, h2, getElem?_mapFrom, getElem?_mapFrom]
    cases ht : texts[i]? with
    | none => rfl
    | some t =>
      simp only [Option.map_some', Nat.zero_add]
      have hcf : (if i / 16 = j then false else chunkFail (i / 16))
          = chunkFail (i / 16) := if_neg hij
      rw [hcf]

/-- C3 witness: with a two-text batch whose (only) chunk 0 fails, both items
become Batch-Failed rows and the batch still has one row per text. -/
theorem claim_chunk_failure_isolation_witness :
    ((fun c : ℕ => decide (c = 0)) 0 = true)
    ∧ (BatchProcessor.process_batch (fun _ => ("4 stars", 1/2))
        (fun _ => some []) (fun c => decide (c = 0)) ["a", "b"]).length = 2
    ∧ (BatchProcessor.process_batch (fun _ => ("4 stars", 1/2))
        (fun _ => some []) (fun c => decide (c = 0)) ["a", "b"])[0]?
        = some (batchFailedRow "a") := by
  have h := claim_chunk_failure_isolation (fun _ => ("4 stars", 1/2))
    (fun _ => some []) (fun c => decide (c = 0)) ["a", "b"] 0 rfl
  exact ⟨rfl, by rw [h.1]; rfl, h.2.2.1 0 "a" rfl rfl⟩

end SentimentPipeline
